import Mathlib

/-!
kiosk-updater: a verification development of `main.go`

The program is a small HTTP server with three handlers (`formHandler`,
`uploadHandler`, `runScriptHandler`).  Each handler is embedded as a pure
function from the request, the state of the filesystem and the outcomes of the
operating-system calls it makes to the response it produces and the resulting
filesystem.

Conventions of the embedding:

* Go `string`s that carry text (file names, query values, paths, MIME types)
  are Lean `String`s; byte slices and response bodies are lists of bytes
  (`List Nat`, each element below 256).
* The filesystem is a function from paths to file contents.  It records the
  files the handlers themselves touch; the temporary files that
  `mime/multipart` keeps for large uploads live outside of it.
* Every standard-library call whose outcome depends on the outside world
  (opening, reading, seeking, creating, copying, the working directory, the
  child process) takes its outcome from an explicit `Runtime` record.
  Opening, reading and seeking an upload can fail only when the library has
  spooled it to a temporary file.
* Standard-library functions that are pure (`filepath.Ext`, `filepath.Join`,
  `filepath.Base`, `strings.EqualFold`, `http.DetectContentType`, `http.Error`,
  `http.Redirect`, `mime/multipart.Reader.ReadForm`) are transcribed from the
  Go standard library.
-/

namespace KioskUpdater

/-! ## Bytes and strings -/

/-- A Go byte slice. -/
abbrev Bytes := List Nat

/-- The bytes of a Go string constant or value (its UTF-8 encoding). -/
def goBytes (s : String) : Bytes :=
  (s.data.flatMap String.utf8EncodeChar).map UInt8.toNat

/-! ## `path/filepath` (Unix) -/

/-- Body of the loop of `filepath.Ext`, walking the path from its last
character towards the first: `rev` is what is still to be visited (reversed),
`acc` the characters already passed.  The loop stops at a path separator and
returns the suffix starting at the first dot it meets. -/
def extLoop : List Char → List Char → List Char
  | [], _ => []
  | c :: rev, acc =>
    if c = '/' then []
    else if c = '.' then c :: acc
    else extLoop rev (c :: acc)

/-- Model of `filepath.Ext`: the suffix beginning at the final dot in the
final element of the path, empty if there is no dot. -/
def Ext (path : String) : String :=
  String.mk (extLoop path.data.reverse [])

/-- Backtracking step of `filepath.Clean` on a `..` element: the write index
is decremented until it reaches `dotdot` or the byte under it is a separator.
The buffer is kept reversed; the head of the argument is the byte under the
write index after its first decrement. -/
def cleanBack (dotdot : Nat) : List Char → List Char
  | [] => []
  | c :: rest => if dotdot < rest.length ∧ c ≠ '/' then cleanBack dotdot rest else rest

/-- Main loop of `filepath.Clean`.  `rest` is the unread input `path[r:]`,
`out` the output buffer (reversed), `dotdot` the index below which the
buffer may not be backtracked. -/
def cleanLoop (rooted : Bool) : Nat → List Char → List Char → Nat → List Char
  | 0, _, out, _ => out
  | _ + 1, [], out, _ => out
  | fuel + 1, c :: rest, out, dotdot =>
    if c = '/' then
      cleanLoop rooted fuel rest out dotdot
    else if c = '.' ∧ (rest = [] ∨ rest.head? = some '/') then
      cleanLoop rooted fuel rest out dotdot
    else if c = '.' ∧ rest.head? = some '.' ∧
        (rest.tail = [] ∨ rest.tail.head? = some '/') then
      if dotdot < out.length then
        cleanLoop rooted fuel rest.tail (cleanBack dotdot out) dotdot
      else if ¬ rooted then
        let out1 := if 0 < out.length then '/' :: out else out
        let out2 := '.' :: '.' :: out1
        cleanLoop rooted fuel rest.tail out2 out2.length
      else
        cleanLoop rooted fuel rest.tail out dotdot
    else
      let out1 :=
        if (rooted ∧ out.length ≠ 1) ∨ (¬ rooted ∧ out.length ≠ 0) then '/' :: out else out
      let elem := (c :: rest).takeWhile (fun x => x ≠ '/')
      cleanLoop rooted fuel ((c :: rest).dropWhile (fun x => x ≠ '/')) (elem.reverse ++ out1) dotdot

/-- Model of `filepath.Clean` on Unix. -/
def Clean (path : String) : String :=
  if path = "" then "."
  else
    let rooted : Bool := path.data.head? = some '/'
    let out :=
      if rooted then cleanLoop true path.length path.data.tail ['/'] 1
      else cleanLoop false path.length path.data [] 0
    if out.length = 0 then "." else String.mk out.reverse

/-- Model of `filepath.Join`: leading empty elements are dropped, the
remaining ones are joined with the separator and the result is cleaned. -/
def Join (elem : List String) : String :=
  match elem.dropWhile (fun e => e = "") with
  | [] => ""
  | es => Clean ("/".intercalate es)

/-- Model of `filepath.Base` on Unix: the last element of the path, trailing
separators removed first; `.` for the empty path and `/` for a path of
separators only. -/
def Base (path : String) : String :=
  if path = "" then "."
  else
    let stripped := path.data.reverse.dropWhile (fun c => c = '/')
    let last := (stripped.takeWhile (fun c => c ≠ '/')).reverse
    if last = [] then "/" else String.mk last

/-! ## `strings.EqualFold` -/

/-- One step of `strings.EqualFold` on a pair of runes.  Equal runes match;
two ASCII runes match when they are the upper- and lower-case form of one
letter; when the larger rune is not ASCII the orbit of `unicode.SimpleFold`
decides.  The orbit of an ASCII rune leaves ASCII only for `K`, `k` (the
Kelvin sign U+212A) and `S`, `s` (the long s U+017F); the orbits of the other
runes are those of the Unicode case tables, supplied as `orbit`. -/
def foldRune (orbit : Char → Char → Bool) (s t : Char) : Bool :=
  if t = s then true
  else
    let sr := if t.toNat < s.toNat then t else s
    let tr := if t.toNat < s.toNat then s else t
    if tr.toNat < 128 then
      decide ('A'.toNat ≤ sr.toNat ∧ sr.toNat ≤ 'Z'.toNat ∧ tr.toNat = sr.toNat + 'a'.toNat - 'A'.toNat)
    else if sr.toNat < 128 then
      decide (((sr = 'K' ∨ sr = 'k') ∧ tr.toNat = 0x212A) ∨
        ((sr = 'S' ∨ sr = 's') ∧ tr.toNat = 0x17F))
    else orbit sr tr

/-- Rune-by-rune loop of `strings.EqualFold`. -/
def equalFoldLoop (orbit : Char → Char → Bool) : List Char → List Char → Bool
  | [], t => t.isEmpty
  | _ :: _, [] => false
  | sr :: s, tr :: t => foldRune orbit sr tr && equalFoldLoop orbit s t

/-- Model of `strings.EqualFold`: equality of two strings under simple
Unicode case folding. -/
def EqualFold (orbit : Char → Char → Bool) (s t : String) : Bool :=
  equalFoldLoop orbit s.data t.data

/-! ## `mime/multipart` -/

/-- The `multipart.FileHeader` of an uploaded file.  `Filename` is what
`Part.FileName` returns, `content` the file's bytes, and `onDisk` tells
whether `ReadForm` spooled them to a temporary file (`tmpfile` set) or kept
them in memory. -/
structure FileHeader where
  Filename : String
  Size : Nat
  content : Bytes
  onDisk : Bool
deriving DecidableEq

/-- Helper function to check if the uploaded file is a PNG (`isPNG`). -/
def isPNG (orbit : Char → Char → Bool) (fileHeader : FileHeader) : Bool :=
  EqualFold orbit (Ext fileHeader.Filename) ".png"

/-! ## `net/http` content sniffing (`sniff.go`) -/

/-- The sniffing algorithm looks at no more than this many bytes (`sniffLen`). -/
def sniffLen : Nat := 512

/-- Whitespace bytes of the sniffing algorithm (`isWS`). -/
def isWS (b : Nat) : Bool :=
  b = 0x09 ∨ b = 0x0A ∨ b = 0x0C ∨ b = 0x0D ∨ b = 0x20

/-- Tag-terminating bytes of the sniffing algorithm (`isTT`). -/
def isTT (b : Nat) : Bool :=
  b = 0x20 ∨ b = 0x3E

/-- The signatures of the sniffing table (`sniffSig` and its implementations
`htmlSig`, `maskedSig`, `exactSig`, `mp4Sig`, `textSig`). -/
inductive sniffSig where
  | html (h : Bytes)
  | masked (mask pat : Bytes) (skipWS : Bool) (ct : String)
  | exact (sig : Bytes) (ct : String)
  | mp4
  | text
deriving DecidableEq

/-- Model of `bytes.HasPrefix`. -/
def HasPrefix : Bytes → Bytes → Bool
  | _, [] => true
  | [], _ :: _ => false
  | d :: ds, p :: ps => if d = p then HasPrefix ds ps else false

/-- Loop of `htmlSig.match`: every byte of the signature is compared with the
data byte at the same index, the data byte being upper-cased (`&= 0xDF`) where
the signature has a capital letter; the byte after the signature must be
tag-terminating. -/
def htmlLoop : Bytes → Bytes → Bool
  | [], [] => false
  | [], d :: _ => isTT d
  | _ :: _, [] => false
  | b :: h, db :: data =>
    let db1 := if 0x41 ≤ b ∧ b ≤ 0x5A then db &&& 0xDF else db
    if b ≠ db1 then false else htmlLoop h data

/-- Loop of `maskedSig.match`: `data[i] & mask[i]` must equal `pat[i]`. -/
def maskedLoop : Bytes → Bytes → Bytes → Bool
  | [], _, _ => true
  | _ :: _, [], _ => false
  | _ :: _, _ :: _, [] => false
  | pb :: pat, m :: mask, d :: data =>
    if d &&& m ≠ pb then false else maskedLoop pat mask data

/-- Big-endian 32-bit value of the first four bytes (`binary.BigEndian.Uint32`). -/
def beUint32 (data : Bytes) : Nat :=
  data.getD 0 0 * 2 ^ 24 + data.getD 1 0 * 2 ^ 16 + data.getD 2 0 * 2 ^ 8 + data.getD 3 0

/-- Model of `mp4Sig.match`.  The loop variable `st` runs over 8, 12, 16, ...
below `boxSize`; since `boxSize` is at most the length of the data, which is
at most `sniffLen`, 128 iterations cover it. -/
def mp4Match (data : Bytes) : Bool :=
  if data.length < 12 then false
  else
    let boxSize := beUint32 data
    if data.length < boxSize ∨ boxSize % 4 ≠ 0 then false
    else if (data.drop 4).take 4 ≠ goBytes "ftyp" then false
    else
      (List.range 128).any (fun k =>
        let st := 8 + 4 * k
        decide (st < boxSize ∧ st ≠ 12 ∧ (data.drop st).take 3 = goBytes "mp4"))

/-- Bytes that rule out plain text (`textSig.match`). -/
def isBinaryByte (b : Nat) : Bool :=
  b ≤ 0x08 ∨ b = 0x0B ∨ (0x0E ≤ b ∧ b ≤ 0x1A) ∨ (0x1C ≤ b ∧ b ≤ 0x1F)

/-- The content type a signature stands for. -/
def sniffSig.ct : sniffSig → String
  | .html _ => "text/html; charset=utf-8"
  | .masked _ _ _ ct => ct
  | .exact _ ct => ct
  | .mp4 => "video/mp4"
  | .text => "text/plain; charset=utf-8"

/-- Model of `sniffSig.match`: the content type of the signature when the data
matches it, the empty string otherwise. -/
def sniffSig.matches (sig : sniffSig) (data : Bytes) (firstNonWS : Nat) : String :=
  match sig with
  | .html h =>
    let data := data.drop firstNonWS
    if data.length < h.length + 1 then ""
    else if htmlLoop h data then "text/html; charset=utf-8" else ""
  | .masked mask pat skipWS ct =>
    let data := if skipWS then data.drop firstNonWS else data
    if pat.length ≠ mask.length then ""
    else if data.length < pat.length then ""
    else if maskedLoop pat mask data then ct else ""
  | .exact sig ct => if HasPrefix data sig then ct else ""
  | .mp4 => if mp4Match data then "video/mp4" else ""
  | .text =>
    if (data.drop firstNonWS).any isBinaryByte then "" else "text/plain; charset=utf-8"

/-- Signature of an HTML tag (`htmlSig`), given as text. -/
def htmlSig (s : String) : sniffSig := .html (goBytes s)

/-- The table `sniffSignatures` of `net/http`. -/
def sniffSignatures : List sniffSig :=
  [ htmlSig "<!DOCTYPE HTML", htmlSig "<HTML", htmlSig "<HEAD", htmlSig "<SCRIPT",
    htmlSig "<IFRAME", htmlSig "<H1", htmlSig "<DIV", htmlSig "<FONT", htmlSig "<TABLE",
    htmlSig "<A", htmlSig "<STYLE", htmlSig "<TITLE", htmlSig "<B", htmlSig "<BODY",
    htmlSig "<BR", htmlSig "<P", htmlSig "<!--",
    .masked [0xFF, 0xFF, 0xFF, 0xFF, 0xFF] (goBytes "<?xml") true "text/xml; charset=utf-8",
    .exact (goBytes "%PDF-") "application/pdf",
    .exact (goBytes "%!PS-Adobe-") "application/postscript",
    -- UTF BOMs.
    .masked [0xFF, 0xFF, 0x00, 0x00] [0xFE, 0xFF, 0x00, 0x00] false "text/plain; charset=utf-16be",
    .masked [0xFF, 0xFF, 0x00, 0x00] [0xFF, 0xFE, 0x00, 0x00] false "text/plain; charset=utf-16le",
    .masked [0xFF, 0xFF, 0xFF, 0x00] [0xEF, 0xBB, 0xBF, 0x00] false "text/plain; charset=utf-8",
    -- Image types
    .exact [0x00, 0x00, 0x01, 0x00] "image/x-icon",
    .exact [0x00, 0x00, 0x02, 0x00] "image/x-icon",
    .exact (goBytes "BM") "image/bmp",
    .exact (goBytes "GIF87a") "image/gif",
    .exact (goBytes "GIF89a") "image/gif",
    .exact [0x89, 0x50, 0x4E, 0x47, 0x0D, 0x0A, 0x1A, 0x0A] "image/png",
    .exact [0xFF, 0xD8, 0xFF] "image/jpeg",
    .masked [0xFF, 0xFF, 0xFF, 0xFF, 0, 0, 0, 0, 0xFF, 0xFF, 0xFF, 0xFF, 0xFF, 0xFF]
      (goBytes "RIFF" ++ [0, 0, 0, 0] ++ goBytes "WEBPVP") false "image/webp",
    -- Audio and Video types
    .masked [0xFF, 0xFF, 0xFF, 0xFF] (goBytes ".snd") false "audio/basic",
    .masked [0xFF, 0xFF, 0xFF, 0xFF, 0, 0, 0, 0, 0xFF, 0xFF, 0xFF, 0xFF]
      (goBytes "FORM" ++ [0, 0, 0, 0] ++ goBytes "AIFF") false "audio/aiff",
    .masked [0xFF, 0xFF, 0xFF] (goBytes "ID3") false "audio/mpeg",
    .masked [0xFF, 0xFF, 0xFF, 0xFF, 0xFF] (goBytes "OggS" ++ [0]) false "application/ogg",
    .masked [0xFF, 0xFF, 0xFF, 0xFF, 0xFF, 0xFF, 0xFF, 0xFF]
      (goBytes "MThd" ++ [0x00, 0x00, 0x00, 0x06]) false "audio/midi",
    .masked [0xFF, 0xFF, 0xFF, 0xFF, 0, 0, 0, 0, 0xFF, 0xFF, 0xFF, 0xFF]
      (goBytes "RIFF" ++ [0, 0, 0, 0] ++ goBytes "AVI ") false "video/avi",
    .masked [0xFF, 0xFF, 0xFF, 0xFF, 0, 0, 0, 0, 0xFF, 0xFF, 0xFF, 0xFF]
      (goBytes "RIFF" ++ [0, 0, 0, 0] ++ goBytes "WAVE") false "audio/wave",
    .mp4,
    .exact [0x1A, 0x45, 0xDF, 0xA3] "video/webm",
    -- Font types
    .masked (List.replicate 34 0x00 ++ [0xFF, 0xFF]) (List.replicate 34 0x00 ++ goBytes "LP")
      false "application/vnd.ms-fontobject",
    .exact [0x00, 0x01, 0x00, 0x00] "font/ttf",
    .exact (goBytes "OTTO") "font/otf",
    .exact (goBytes "ttcf") "font/collection",
    .exact (goBytes "wOFF") "font/woff",
    .exact (goBytes "wOF2") "font/woff2",
    -- Archive types
    .exact [0x1F, 0x8B, 0x08] "application/x-gzip",
    .exact (goBytes "PK" ++ [0x03, 0x04]) "application/zip",
    .exact (goBytes "Rar!" ++ [0x1A, 0x07, 0x00]) "application/x-rar-compressed",
    .exact (goBytes "Rar!" ++ [0x1A, 0x07, 0x01, 0x00]) "application/x-rar-compressed",
    .exact [0x00, 0x61, 0x73, 0x6D] "application/wasm",
    .text ]

/-- Index of the first non-whitespace byte (the first loop of
`DetectContentType`). -/
def firstNonWS : Bytes → Nat
  | [] => 0
  | b :: data => if isWS b then firstNonWS data + 1 else 0

/-- The loop of `DetectContentType` over the signature table: the content
type of the first signature that matches, the fallback when none does. -/
def sniffLoop (data : Bytes) (fnws : Nat) : List sniffSig → String
  | [] => "application/octet-stream"
  | sig :: sigs =>
    let ct := sig.matches data fnws
    if ct ≠ "" then ct else sniffLoop data fnws sigs

/-- Model of `http.DetectContentType`: at most the first 512 bytes are
considered and the result is always a valid MIME type. -/
def DetectContentType (data : Bytes) : String :=
  let data := if sniffLen < data.length then data.take sniffLen else data
  sniffLoop data (firstNonWS data) sniffSignatures

/-! ## The filesystem and the outcomes of system calls -/

/-- State of the filesystem: the content of the file at each path, `none`
where no file exists. -/
abbrev FS := String → Option Bytes

/-- The filesystem with the file at `path` holding `content`. -/
def FS.write (fs : FS) (path : String) (content : Bytes) : FS :=
  fun q => if q = path then some content else fs q

/-- How the run of a child process ends: it cannot be started, it exits with
a status after writing `output` to its standard output and error, or it ends
in another way (killed by a signal, an error while its output is collected)
that the library reports as the error `err` next to what was captured. -/
inductive Outcome where
  | startFailed (err : String)
  | exited (code : Nat) (output : Bytes)
  | failed (err : String) (output : Bytes)
deriving DecidableEq

/-- Everything a handler takes from outside the program during one request:
the Unicode case-folding orbits, whether each fallible system call fails
(`copyErr = some k`: `io.Copy` fails after writing `k` bytes), the clock, the
working directory and what running a command does.  `openErr`, `readErr` and
`seekErr` concern the temporary file of an upload that was spooled to disk: an
upload kept in memory always opens, reads up to its end and seeks. -/
structure Runtime where
  orbit : Char → Char → Bool
  openErr : Bool
  readErr : Bool
  seekErr : Bool
  createErr : Bool
  copyErr : Option Nat
  now : Int
  getwd : Except String String
  run : String → Outcome

/-! ## `mime/multipart`: reading the form -/

/-- One part of a `multipart/form-data` body: the field name, the `filename`
parameter of its `Content-Disposition` as the client sent it (empty when the
part has none) and the payload. -/
structure Part where
  name : String
  filename : String
  content : Bytes
deriving DecidableEq

/-- Model of `Part.FileName`: the last path element of the `filename`
parameter, empty when the part has none. -/
def Part.FileName (p : Part) : String :=
  if p.filename = "" then "" else Base p.filename

/-- Payload length of a part. -/
def Part.size (p : Part) : Nat := p.content.length

/-- A parsed form (`multipart.Form`): values and files by field name, in the
order of the parts. -/
structure Form where
  Value : List (String × Bytes)
  File : List (String × FileHeader)
deriving DecidableEq

/-- Loop of `multipart.Reader.ReadForm` over the parts.  A part without a
field name is skipped; a part without a file name is a value.  Values are
charged to `maxValueBytes` and make the form fail with `ErrMessageTooLarge`
once it is exhausted.  A file is kept in memory while it fits in what is left
of `maxMemory` (and is then charged to both budgets); a larger file is written
to a temporary file and is not charged: no file is rejected for its size. -/
def readFormLoop : List Part → Int → Int → Form → Except String Form
  | [], _, _, form => .ok form
  | p :: parts, maxMemory, maxValueBytes, form =>
    let name := p.name
    if name = "" then readFormLoop parts maxMemory maxValueBytes form
    else
      let filename := p.FileName
      if filename = "" then
        let n : Int := min (p.content.length : Int) (max 0 (maxValueBytes + 1))
        if maxValueBytes - n < 0 then .error "multipart: message too large"
        else readFormLoop parts maxMemory (maxValueBytes - n)
          { form with Value := form.Value ++ [(name, p.content)] }
      else
        let n : Int := min (p.content.length : Int) (max 0 (maxMemory + 1))
        if maxMemory < n then
          readFormLoop parts maxMemory maxValueBytes
            { form with
              File := form.File ++ [(name, ⟨filename, p.content.length, p.content, true⟩)] }
        else
          readFormLoop parts (maxMemory - n) (maxValueBytes - n)
            { form with
              File := form.File ++ [(name, ⟨filename, p.content.length, p.content, false⟩)] }

/-- Model of `multipart.Reader.ReadForm`: ten more megabytes than `maxMemory`
are reserved for the non-file parts. -/
def ReadForm (parts : List Part) (maxMemory : Nat) : Except String Form :=
  readFormLoop parts maxMemory ((maxMemory : Int) + (10 <<< 20 : Nat)) ⟨[], []⟩

/-! ## `net/http`: requests and responses -/

/-- An incoming request.  `query` is the decoded URL query in order; `parts`
are the parts of the body.  `malformed` holds when `ParseMultipartForm` fails
for a reason other than the size of the values: the content type is not
`multipart/form-data`, the framing is broken, the URL query or a form body
does not decode (the error of `ParseForm` is returned as well), the body has
more parts or larger part headers than the library admits, or reading the
body or spooling a file to disk fails. -/
structure Request where
  Method : String
  query : List (String × String)
  malformed : Bool
  parts : List Part
deriving DecidableEq

/-- Length of the request body, counting only the payload of its parts (the
boundaries and part headers come on top). -/
def Request.bodySize (r : Request) : Nat :=
  (r.parts.map Part.size).sum

/-- Model of `url.Values.Get`: the first value of the key, empty if none. -/
def Get : List (String × String) → String → String
  | [], _ => ""
  | (k, v) :: q, key => if k = key then v else Get q key

/-- Model of `Request.ParseMultipartForm`: the failures gathered in
`malformed`, then `ReadForm`. -/
def ParseMultipartForm (r : Request) (maxMemory : Nat) : Except String Form :=
  if r.malformed then .error "request Content-Type isn't multipart/form-data"
  else ReadForm r.parts maxMemory

/-- An open uploaded file (`multipart.File`): its bytes, the read offset, and
whether it is a temporary file on disk (`*os.File`) or a reader over memory
(`io.SectionReader`). -/
structure File where
  data : Bytes
  off : Nat
  onDisk : Bool
deriving DecidableEq

/-- First header of the field `key` in the form (`r.MultipartForm.File[key][0]`). -/
def firstFile : List (String × FileHeader) → String → Option FileHeader
  | [], _ => none
  | (k, fh) :: fs, key => if k = key then some fh else firstFile fs key

/-- Model of `Request.FormFile` on a parsed form: the first file of the field,
opened (`FileHeader.Open`, which can fail only for a file on disk);
`http.ErrMissingFile` when the field has no file. -/
def FormFile (rt : Runtime) (form : Form) (key : String) : Except String (File × FileHeader) :=
  match firstFile form.File key with
  | some fh =>
    if fh.onDisk ∧ rt.openErr then .error "open failed"
    else .ok (⟨fh.content, 0, fh.onDisk⟩, fh)
  | none => .error "http: no such file"

/-- Model of `File.Read` into a buffer: the buffer after the call, the number
of bytes read, the error and the file.  At the end of the file nothing is read
and the error is `io.EOF`; reading a file on disk can fail besides. -/
def File.Read (rt : Runtime) (f : File) (buffer : Bytes) : Bytes × Nat × Option String × File :=
  if f.onDisk ∧ rt.readErr then (buffer, 0, some "read error", f)
  else if f.data.length ≤ f.off then (buffer, 0, some "EOF", f)
  else
    let chunk := (f.data.drop f.off).take buffer.length
    (chunk ++ buffer.drop chunk.length, chunk.length, none, { f with off := f.off + chunk.length })

/-- Model of `File.Seek(offset, io.SeekStart)`: on a reader over memory it
sets the offset and cannot fail, on a file on disk the system call can fail. -/
def File.Seek (rt : Runtime) (f : File) (offset : Nat) : Except String File :=
  if f.onDisk ∧ rt.seekErr then .error "seek error" else .ok { f with off := offset }

/-- Model of `os.Create`: the file is created or truncated. -/
def Create (rt : Runtime) (fs : FS) (path : String) : Except String FS :=
  if rt.createErr then .error "create error" else .ok (fs.write path [])

/-- Model of `io.Copy` from an uploaded file into the freshly created file at
`path`: everything from the read offset to the end is written, or only the
first `k` bytes of it when the copy fails. -/
def Copy (rt : Runtime) (fs : FS) (path : String) (f : File) : FS × Option String :=
  match rt.copyErr with
  | some k => (fs.write path ((f.data.drop f.off).take k), some "copy error")
  | none => (fs.write path (f.data.drop f.off), none)

/-- What a handler wrote to its `http.ResponseWriter`. -/
structure Response where
  status : Nat
  header : List (String × String)
  body : Bytes
deriving DecidableEq

def StatusOK : Nat := 200
def StatusSeeOther : Nat := 303
def StatusBadRequest : Nat := 400
def StatusMethodNotAllowed : Nat := 405
def StatusUnsupportedMediaType : Nat := 415
def StatusInternalServerError : Nat := 500
def MethodPost : String := "POST"

/-- Model of `http.Error` on a fresh writer: plain-text headers, the status
code, and the message followed by a newline. -/
def Error (error : Bytes) (code : Nat) : Response :=
  { status := code
    header := [("Content-Type", "text/plain; charset=utf-8"), ("X-Content-Type-Options", "nosniff")]
    body := error ++ goBytes "\n" }

/-- Model of `http.Redirect` on a fresh writer for a target that is a clean
absolute path without characters to escape (the handler redirects to `/`) and
the status 303: the `Location` header, and for GET and HEAD requests a short
HTML note. -/
def Redirect (r : Request) (url : String) (code : Nat) : Response :=
  { status := code
    header := [("Location", url)] ++
      (if r.Method = "GET" ∨ r.Method = "HEAD" then [("Content-Type", "text/html; charset=utf-8")]
       else [])
    body := if r.Method = "GET" then goBytes ("<a href=\"" ++ url ++ "\">See Other</a>.\n\n") else [] }

/-- What one call of a handler does: the response, the filesystem afterwards,
the lines printed to standard output and the commands executed. -/
structure Result where
  resp : Response
  fs : FS
  stdout : List String
  executed : List String

/-! ## The program (`main.go`) -/

def uploadPath : String := "uploads"

/-- Image data struct for tracking uploaded images. -/
structure ImageData where
  Image1 : String
  Image2 : String
  Image3 : String
  Output : String
  Timestamp : Int
deriving DecidableEq

/-- Helper function to get image path if it exists (`os.Stat` succeeds on the
joined path). -/
def getImagePath (fs : FS) (name : String) : String :=
  let path := Join [uploadPath, name ++ ".png"]
  if (fs path).isSome then "/" ++ path else ""

/-- Main handler for the form: the view model and, through the template
`tmpl`, the page. -/
def formHandler (tmpl : ImageData → Bytes) (rt : Runtime) (fs : FS) : ImageData × Result :=
  let images : ImageData :=
    { Image1 := getImagePath fs "image1"
      Image2 := getImagePath fs "image2"
      Image3 := getImagePath fs "image3"
      Output := ""
      Timestamp := rt.now }
  (images, ⟨⟨StatusOK, [], tmpl images⟩, fs, [], []⟩)

/-- Upload handler that only accepts PNG files. -/
def uploadHandler (rt : Runtime) (fs : FS) (r : Request) : Result :=
  -- Parse the form
  match ParseMultipartForm r (10 <<< 20) with
  | .error _ => ⟨Error (goBytes "File too large") StatusBadRequest, fs, [], []⟩
  | .ok form =>
  -- Check which image field was submitted and process accordingly
  let imageField := Get r.query "image"
  if imageField ≠ "image1" ∧ imageField ≠ "image2" ∧ imageField ≠ "image3" then
    ⟨Error (goBytes "Invalid image field") StatusBadRequest, fs, [], []⟩
  else
  match FormFile rt form imageField with
  | .error _ => ⟨Error (goBytes "No file uploaded") StatusBadRequest, fs, [], []⟩
  | .ok (file, header) =>
  -- Check if the uploaded file is a PNG
  if ¬ isPNG rt.orbit header then
    ⟨Error (goBytes "Only PNG files are allowed") StatusUnsupportedMediaType, fs, [], []⟩
  else
  -- Read the first 512 bytes for MIME type detection
  let buffer := List.replicate 512 0
  match file.Read rt buffer with
  | (_, _, some _, _) =>
    ⟨Error (goBytes "Unable to read file") StatusInternalServerError, fs, [], []⟩
  | (buffer, _, none, file) =>
  -- Detect the file's MIME type
  let mimeType := DetectContentType buffer
  let out := ["Uploaded File: " ++ header.Filename ++ "\n", "MIME Type: " ++ mimeType ++ "\n"]
  -- Check if the MIME type is an allowed image type
  if mimeType ≠ "image/png" ∧ mimeType ≠ "image/jpeg" then
    ⟨Error (goBytes "Invalid file type. Only PNG and JPEG are allowed.")
      StatusUnsupportedMediaType, fs, out, []⟩
  else
  -- Reset the file pointer to the beginning
  match file.Seek rt 0 with
  | .error _ => ⟨Error (goBytes "Unable to seek file") StatusInternalServerError, fs, out, []⟩
  | .ok file =>
  -- Save the file with a fixed .png extension
  let filename := imageField ++ ".png"
  let filepath := Join [uploadPath, filename]
  match Create rt fs filepath with
  | .error _ => ⟨Error (goBytes "Unable to save the file") StatusInternalServerError, fs, out, []⟩
  | .ok fs1 =>
  match Copy rt fs1 filepath file with
  | (fs2, some _) =>
    ⟨Error (goBytes "Unable to save the file") StatusInternalServerError, fs2, out, []⟩
  | (fs2, none) => ⟨Redirect r "/" StatusSeeOther, fs2, out, []⟩

/-- Model of `Cmd.CombinedOutput`: the captured output and the error, which
is `nil` exactly when the command ran and exited with status 0. -/
def CombinedOutput (o : Outcome) : Bytes × Option String :=
  match o with
  | .startFailed err => ([], some err)
  | .exited 0 output => (output, none)
  | .exited (n + 1) output => (output, some ("exit status " ++ toString (n + 1)))
  | .failed err output => (output, some err)

/-- Run script handler. -/
def runScriptHandler (rt : Runtime) (fs : FS) (r : Request) : Result :=
  if r.Method ≠ MethodPost then
    ⟨Error (goBytes "Invalid request method") StatusMethodNotAllowed, fs, [], []⟩
  else
  -- Run your script
  match rt.getwd with
  | .error err => ⟨⟨StatusOK, [], []⟩, fs, ["Error: " ++ err ++ "\n"], []⟩
  | .ok currentDir =>
  let scriptPath := Join [currentDir, "scripts", "script.sh"]
  match CombinedOutput (rt.run scriptPath) with
  | (output, some err) =>
    ⟨Error (goBytes "Script failed: " ++ goBytes err ++ goBytes "\nOutput: " ++ output)
      StatusInternalServerError, fs, [], [scriptPath]⟩
  | (output, none) =>
    -- Return the script output as plain text
    ⟨⟨StatusOK, [("Content-Type", "text/plain")], output⟩, fs, [], [scriptPath]⟩

/-! ## Auxiliary definitions for the proofs -/

/-- The PNG signature of the sniffing table. -/
def pngSig : Bytes := [0x89, 0x50, 0x4E, 0x47, 0x0D, 0x0A, 0x1A, 0x0A]

/-- The JPEG signature of the sniffing table. -/
def jpegSig : Bytes := [0xFF, 0xD8, 0xFF]

/-- The HTML loop already fails inside the known leading bytes `pre`. -/
def htmlMismatch : Bytes → Bytes → Bool
  | b :: h, db :: pre =>
    if b ≠ (if 0x41 ≤ b ∧ b ≤ 0x5A then db &&& 0xDF else db) then true else htmlMismatch h pre
  | _, _ => false

/-- The masked loop already fails inside the known leading bytes `pre`. -/
def maskedMismatch : Bytes → Bytes → Bytes → Bool
  | pb :: pat, m :: mask, d :: pre => if d &&& m ≠ pb then true else maskedMismatch pat mask pre
  | _, _, _ => false

/-- The prefix test already fails inside the known leading bytes `pre`. -/
def exactMismatch : Bytes → Bytes → Bool
  | d :: pre, p :: sig => if d = p then exactMismatch pre sig else true
  | _, _ => false

/-- A signature that cannot match any data starting with `pre` (whose first
byte is not whitespace), decided on `pre` alone. -/
def cannotMatch (pre : Bytes) : sniffSig → Bool
  | .html h => htmlMismatch h pre
  | .masked mask pat _ _ => maskedMismatch pat mask pre
  | .exact sig _ => exactMismatch pre sig
  | .mp4 => false
  | .text => false

/-- The sniffed types `uploadHandler` lets through. -/
def accepted (mimeType : String) : Prop :=
  mimeType = "image/png" ∨ mimeType = "image/jpeg"

instance (m : String) : Decidable (accepted m) := by unfold accepted; infer_instance

/-- The 512-byte buffer `uploadHandler` sniffs: the leading bytes of the
content, the rest of the buffer still zero. -/
def sniffBuffer (content : Bytes) : Bytes :=
  content.take 512 ++ List.replicate (512 - (content.take 512).length) 0

/-- First file part of a body with the field name `key`, that is the first
part of that name that has a file name: the file name as `Part.FileName`
gives it and the bytes the client sent. -/
def uploaded : List Part → String → Option (String × Bytes)
  | [], _ => none
  | p :: parts, key =>
    if p.name = key ∧ p.FileName ≠ "" then some (p.FileName, p.content) else uploaded parts key

/-- The extension `.png` in every letter case. -/
def pngExts : List String :=
  [".png", ".pnG", ".pNg", ".pNG", ".Png", ".PnG", ".PNg", ".PNG"]

/-- The three slots. -/
def slots : List String := ["image1", "image2", "image3"]

/-- The field of the view model that belongs to a slot. -/
def ImageData.slot (d : ImageData) (s : String) : String :=
  if s = "image1" then d.Image1
  else if s = "image2" then d.Image2
  else if s = "image3" then d.Image3
  else ""

/-! ### Concrete inputs -/

/-- A run in which no system call fails and the script prints `done`. -/
def rtOk : Runtime :=
  { orbit := fun _ _ => false
    openErr := false
    readErr := false
    seekErr := false
    createErr := false
    copyErr := none
    now := 1700000000
    getwd := .ok "/srv/kiosk"
    run := fun _ => .exited 0 (goBytes "done\n") }

/-- A run in which rewinding the uploaded file fails. -/
def rtSeekFails : Runtime := { rtOk with seekErr := true }

/-- A run in which the script exits with status 3. -/
def rtScriptFails : Runtime := { rtOk with run := fun _ => .exited 3 (goBytes "oops\n") }

/-- A run in which the script cannot be started. -/
def rtNoScript : Runtime := { rtOk with run := fun _ => .startFailed "permission denied" }

/-- A run in which the script is killed after printing `half`. -/
def rtScriptKilled : Runtime :=
  { rtOk with run := fun _ => .failed "signal: killed" (goBytes "half") }

/-- A run in which the working directory cannot be determined. -/
def rtNoWd : Runtime := { rtOk with getwd := .error "getwd: no such file or directory" }

/-- An empty filesystem. -/
def fsEmpty : FS := fun _ => none

/-- A filesystem in which slot 2 already has a file. -/
def fsOld : FS := fsEmpty.write "uploads/image2.png" [1, 2, 3]

/-- The start of a PNG file. -/
def pngFile : Bytes := pngSig ++ [0, 0, 0, 13, 73, 72, 68, 82]

/-- The start of a JPEG file. -/
def jpegFile : Bytes := jpegSig ++ [0xE0, 0, 16, 74, 70, 73, 70, 0]

/-- Upload of a PNG file to slot 2. -/
def reqPng : Request :=
  ⟨"POST", [("image", "image2")], false, [⟨"image2", "logo.PNG", pngFile⟩]⟩

/-- Upload of a JPEG byte stream named `photo.png` to slot 1. -/
def reqJpegAsPng : Request :=
  ⟨"POST", [("image", "image1")], false, [⟨"image1", "photo.png", jpegFile⟩]⟩

/-- Upload of PNG bytes named `photo.jpg` to slot 3. -/
def reqPhotoJpg : Request :=
  ⟨"POST", [("image", "image3")], false, [⟨"image3", "photo.jpg", pngFile⟩]⟩

/-- Upload of an empty file named `empty.png` to slot 1. -/
def reqEmpty : Request :=
  ⟨"POST", [("image", "image1")], false, [⟨"image1", "empty.png", []⟩]⟩

/-- Upload that names the slot `image4`. -/
def reqImage4 : Request :=
  ⟨"POST", [("image", "image4")], false, [⟨"image4", "logo.png", pngFile⟩]⟩

/-- Upload without the `image` query parameter. -/
def reqNoSlot : Request :=
  ⟨"POST", [], false, [⟨"image1", "logo.png", pngFile⟩]⟩

/-- A GET request. -/
def reqGet : Request := ⟨"GET", [], true, []⟩

/-- A POST request without a body. -/
def reqPost : Request := ⟨"POST", [], true, []⟩

/-- A PNG signature followed by ten mebibytes of zero bytes. -/
def bigFile : Bytes := pngSig ++ List.replicate (10 <<< 20) 0

/-- The header `ReadForm` makes for `bigFile`: spooled to disk. -/
def fhBig : FileHeader := ⟨"big.png", bigFile.length, bigFile, true⟩

/-- The form `ReadForm` makes of the body of `reqBig`. -/
def formBig : Form := ⟨[], [("image1", fhBig)]⟩

/-- Upload of `bigFile` to slot 1: a body of more than 10 MiB. -/
def reqBig : Request :=
  ⟨"POST", [("image", "image1")], false, [⟨"image1", "big.png", bigFile⟩]⟩

/-! ## Lemmas on content sniffing -/

theorem HasPrefix_iff (d p : Bytes) : HasPrefix d p = true ↔ p <+: d := by
  induction p generalizing d with
  | nil => simp [HasPrefix]
  | cons x xs ih =>
    cases d with
    | nil => simp [HasPrefix]
    | cons y ys =>
      simp only [HasPrefix]
      split_ifs with h
      · subst h
        rw [ih]
        simp [List.cons_prefix_cons]
      · simp only [List.cons_prefix_cons, false_iff, not_and, Bool.false_eq_true]
        intro h1
        exact absurd h1.symm h

theorem htmlLoop_of_mismatch (h pre rest : Bytes) (hm : htmlMismatch h pre = true) :
    htmlLoop h (pre ++ rest) = false := by
  induction h generalizing pre with
  | nil => cases pre <;> simp [htmlMismatch] at hm
  | cons b h ih =>
    cases pre with
    | nil => simp [htmlMismatch] at hm
    | cons db pre =>
      simp only [htmlMismatch] at hm
      simp only [List.cons_append, htmlLoop]
      split_ifs at hm ⊢ <;> first | rfl | exact ih pre hm

theorem maskedLoop_of_mismatch (pat mask pre rest : Bytes)
    (hm : maskedMismatch pat mask pre = true) : maskedLoop pat mask (pre ++ rest) = false := by
  induction pat generalizing mask pre with
  | nil => simp [maskedMismatch] at hm
  | cons pb pat ih =>
    cases mask with
    | nil => simp [maskedMismatch] at hm
    | cons m mask =>
      cases pre with
      | nil => simp [maskedMismatch] at hm
      | cons d pre =>
        simp only [maskedMismatch] at hm
        simp only [List.cons_append, maskedLoop]
        split_ifs at hm ⊢ <;> first | rfl | exact ih mask pre hm

theorem HasPrefix_of_mismatch (pre sig rest : Bytes) (hm : exactMismatch pre sig = true) :
    HasPrefix (pre ++ rest) sig = false := by
  induction pre generalizing sig with
  | nil => simp [exactMismatch] at hm
  | cons d pre ih =>
    cases sig with
    | nil => simp [exactMismatch] at hm
    | cons p sig =>
      simp only [exactMismatch] at hm
      simp only [List.cons_append, HasPrefix]
      split_ifs at hm ⊢ <;> first | rfl | exact ih sig hm

theorem matches_of_cannotMatch (sig : sniffSig) (pre rest : Bytes)
    (hm : cannotMatch pre sig = true) : sig.matches (pre ++ rest) 0 = "" := by
  cases sig with
  | html h =>
    simp only [cannotMatch] at hm
    simp [sniffSig.matches, htmlLoop_of_mismatch h pre rest hm]
  | masked mask pat skipWS ct =>
    simp only [cannotMatch] at hm
    simp [sniffSig.matches, maskedLoop_of_mismatch pat mask pre rest hm]
  | exact sig ct =>
    simp only [cannotMatch] at hm
    simp [sniffSig.matches, HasPrefix_of_mismatch pre sig rest hm]
  | mp4 => simp [cannotMatch] at hm
  | text => simp [cannotMatch] at hm

theorem matches_eq (sig : sniffSig) (data : Bytes) (f : Nat) :
    sig.matches data f = "" ∨ sig.matches data f = sig.ct := by
  cases sig <;> simp only [sniffSig.matches, sniffSig.ct] <;> split_ifs <;> simp

theorem sniffLoop_skip (data : Bytes) (f : Nat) (l1 l2 : List sniffSig)
    (h : ∀ sig ∈ l1, sig.matches data f = "") :
    sniffLoop data f (l1 ++ l2) = sniffLoop data f l2 := by
  induction l1 with
  | nil => rfl
  | cons s l1 ih =>
    have hs : s.matches data f = "" := h s (List.mem_cons_self _ _)
    simp only [List.cons_append, sniffLoop, hs, ne_eq, not_true_eq_false, if_false]
    exact ih (fun sig hsig => h sig (List.mem_cons_of_mem _ hsig))

theorem sniffLoop_found (data : Bytes) (f : Nat) (sigs : List sniffSig) (c : String)
    (h : sniffLoop data f sigs = c) (hc : c ≠ "application/octet-stream") :
    ∃ sig ∈ sigs, sig.ct = c ∧ sig.matches data f = c := by
  induction sigs with
  | nil => exact absurd h.symm hc
  | cons s sigs ih =>
    simp only [sniffLoop] at h
    split_ifs at h with h1
    · rcases matches_eq s data f with h2 | h2
      · exact absurd h2 h1
      · exact ⟨s, List.mem_cons_self _ _, by rw [← h2, h], h⟩
    · obtain ⟨sig, hmem, hct, hm⟩ := ih h
      exact ⟨sig, List.mem_cons_of_mem _ hmem, hct, hm⟩

theorem truncate_eq (data : Bytes) :
    (if sniffLen < data.length then data.take sniffLen else data) = data.take 512 := by
  unfold sniffLen
  split_ifs with h
  · rfl
  · exact (List.take_of_length_le (not_lt.mp h)).symm

theorem firstNonWS_of_head (b : Nat) (l : Bytes) (h : isWS b = false) :
    firstNonWS (b :: l) = 0 := by
  simp [firstNonWS, h]

/-- Characterisation of the sniffed type for an exact signature `p` that every
earlier signature of the table excludes. -/
theorem detect_exact_iff (p : Bytes) (ct : String) (before after : List sniffSig) (b : Nat)
    (p1 : Bytes) (hp : p = b :: p1) (hws : isWS b = false)
    (htable : sniffSignatures = before ++ sniffSig.exact p ct :: after)
    (hbefore : ∀ s ∈ before, cannotMatch p s = true)
    (huniq : ∀ s ∈ sniffSignatures, s.ct = ct → s = sniffSig.exact p ct)
    (hct : ct ≠ "") (hoct : ct ≠ "application/octet-stream") (hlen : p.length ≤ 512)
    (data : Bytes) :
    DetectContentType data = ct ↔ p <+: data := by
  unfold DetectContentType
  simp only [truncate_eq]
  constructor
  · intro h
    obtain ⟨sig, hmem, hsct, hm⟩ := sniffLoop_found _ _ _ _ h hoct
    have hs := huniq sig hmem hsct
    subst hs
    simp only [sniffSig.matches] at hm
    split_ifs at hm with h1
    · exact ((HasPrefix_iff _ _).mp h1).trans (List.take_prefix _ _)
    · exact absurd hm.symm hct
  · intro h
    have h1 : p <+: data.take 512 := List.prefix_take_iff.mpr ⟨h, hlen⟩
    obtain ⟨rest, hrest⟩ := h1
    rw [← hrest, htable]
    have hf : firstNonWS (p ++ rest) = 0 := by
      rw [hp]; exact firstNonWS_of_head b _ hws
    rw [hf, sniffLoop_skip _ _ _ _ (fun s hs => matches_of_cannotMatch s p rest (hbefore s hs))]
    have h2 : HasPrefix (p ++ rest) p = true := (HasPrefix_iff _ _).mpr (List.prefix_append _ _)
    simp [sniffLoop, sniffSig.matches, h2, hct]

theorem detect_png_iff (data : Bytes) :
    DetectContentType data = "image/png" ↔ pngSig <+: data :=
  detect_exact_iff pngSig "image/png" (sniffSignatures.take 28) (sniffSignatures.drop 29)
    0x89 _ rfl (by decide) (by decide) (by decide) (by decide) (by decide) (by decide)
    (by decide) data

theorem detect_jpeg_iff (data : Bytes) :
    DetectContentType data = "image/jpeg" ↔ jpegSig <+: data :=
  detect_exact_iff jpegSig "image/jpeg" (sniffSignatures.take 29) (sniffSignatures.drop 30)
    0xFF _ rfl (by decide) (by decide) (by decide) (by decide) (by decide) (by decide)
    (by decide) data

/-- Zero bytes appended to the data do not complete a signature without
zero bytes. -/
theorem prefix_pad_iff (p c : Bytes) (k : Nat) (hz : 0 ∉ p) :
    p <+: c ++ List.replicate k 0 ↔ p <+: c := by
  constructor
  · intro h
    by_cases hle : p.length ≤ c.length
    · exact List.prefix_of_prefix_length_le h (List.prefix_append _ _) hle
    · exfalso
      have hc : c <+: p :=
        List.prefix_of_prefix_length_le (List.prefix_append _ _) h (by omega)
      obtain ⟨t, ht⟩ := hc
      subst ht
      have ht2 : t <+: List.replicate k 0 := (List.prefix_append_right_inj c).mp h
      cases t with
      | nil => simp at hle
      | cons x t =>
        have hx : x ∈ List.replicate k 0 := ht2.subset (List.mem_cons_self _ _)
        have hx0 : x = 0 := List.eq_of_mem_replicate hx
        subst hx0
        exact hz (List.mem_append_right _ (List.mem_cons_self _ _))
  · intro h
    exact h.trans (List.prefix_append _ _)

/-- Sniffing the zero-padded buffer accepts exactly when sniffing the content
does. -/
theorem accepted_sniffBuffer (content : Bytes) :
    accepted (DetectContentType (sniffBuffer content)) ↔ accepted (DetectContentType content) := by
  unfold accepted sniffBuffer
  rw [detect_png_iff, detect_jpeg_iff, detect_png_iff, detect_jpeg_iff,
    prefix_pad_iff _ _ _ (by decide), prefix_pad_iff _ _ _ (by decide),
    List.prefix_take_iff, List.prefix_take_iff]
  have h1 : pngSig.length ≤ 512 := by decide
  have h2 : jpegSig.length ≤ 512 := by decide
  simp [h1, h2]

theorem not_accepted_nil : ¬ accepted (DetectContentType []) := by decide

/-! ## Lemmas on the form -/

theorem firstFile_append (l : List (String × FileHeader)) (k key : String) (fh : FileHeader) :
    firstFile (l ++ [(k, fh)]) key =
      (firstFile l key).orElse (fun _ => if k = key then some fh else none) := by
  induction l with
  | nil => simp [firstFile, Option.orElse]
  | cons x l ih =>
    obtain ⟨k1, fh1⟩ := x
    by_cases h : k1 = key
    · simp [firstFile, h, Option.orElse]
    · simp only [List.cons_append, firstFile, h, if_false]
      exact ih

/-- The first file of a field in the parsed form is the first file part of
that name in the body, unless the accumulated form already had one. -/
theorem readFormLoop_firstFile (parts : List Part) (m v : Int) (acc form : Form) (key : String)
    (hkey : key ≠ "") (h : readFormLoop parts m v acc = .ok form) :
    (firstFile form.File key).map (fun fh => (fh.Filename, fh.content)) =
      ((firstFile acc.File key).map (fun fh => (fh.Filename, fh.content))).orElse
        (fun _ => uploaded parts key) := by
  induction parts generalizing m v acc with
  | nil =>
    simp only [readFormLoop, Except.ok.injEq] at h
    subst h
    cases firstFile acc.File key <;> simp [uploaded, Option.orElse]
  | cons p parts ih =>
    simp only [readFormLoop] at h
    have hne : p.name = "" → p.name ≠ key := fun h0 h1 => hkey (h1 ▸ h0)
    split_ifs at h with h1 h2 h3 h4
    · rw [ih _ _ _ h]
      simp [uploaded, hne h1]
    · rw [ih _ _ _ h]
      simp [uploaded, h2]
    · rw [ih _ _ _ h, firstFile_append]
      cases firstFile acc.File key <;> by_cases hk : p.name = key <;>
        simp [uploaded, Option.orElse, hk, h2]
    · rw [ih _ _ _ h, firstFile_append]
      cases firstFile acc.File key <;> by_cases hk : p.name = key <;>
        simp [uploaded, Option.orElse, hk, h2]

/-- After a successful parse the header found for a field carries the file
name and the bytes of the first file part of that name. -/
theorem firstFile_of_uploaded (r : Request) (maxMemory : Nat) (form : Form) (key filename : String)
    (content : Bytes) (hkey : key ≠ "")
    (hparse : ParseMultipartForm r maxMemory = .ok form)
    (hup : uploaded r.parts key = some (filename, content)) :
    ∃ fh, firstFile form.File key = some fh ∧ fh.Filename = filename ∧ fh.content = content := by
  unfold ParseMultipartForm at hparse
  split_ifs at hparse
  have h := readFormLoop_firstFile _ _ _ _ _ key hkey hparse
  simp only [firstFile, Option.map_none', Option.orElse, hup] at h
  cases hf : firstFile form.File key with
  | none => simp [hf] at h
  | some fh =>
    simp only [hf, Option.map_some', Option.some.injEq, Prod.mk.injEq] at h
    exact ⟨fh, rfl, h.1, h.2⟩

theorem Base_ne_empty (path : String) : Base path ≠ "" := by
  unfold Base
  by_cases h1 : path = ""
  · rw [if_pos h1]
    decide
  · rw [if_neg h1]
    dsimp only
    split_ifs with h2
    · decide
    · intro h
      exact h2 (congrArg String.data h)

theorem FileName_ne_empty (p : Part) (h : p.filename ≠ "") : p.FileName ≠ "" := by
  unfold Part.FileName
  rw [if_neg h]
  exact Base_ne_empty _

/-- A single file part larger than `maxMemory` is spooled to disk and the
form is read. -/
theorem readFormLoop_one_big (p : Part) (m : Nat) (v : Int) (hname : p.name ≠ "")
    (hfn : p.filename ≠ "") (hbig : m < p.content.length) :
    readFormLoop [p] m v ⟨[], []⟩ =
      .ok ⟨[], [(p.name, ⟨p.FileName, p.content.length, p.content, true⟩)]⟩ := by
  have hF := FileName_ne_empty p hfn
  have hlt : (m : Int) < min (p.content.length : Int) (max 0 ((m : Int) + 1)) := by omega
  simp only [readFormLoop, hname, hF, if_false, if_pos hlt, List.nil_append]

theorem bigFile_length : 10 <<< 20 < bigFile.length := by
  simp only [bigFile, List.length_append, List.length_replicate]
  decide

theorem reqBig_parse : ParseMultipartForm reqBig (10 <<< 20) = .ok formBig := by
  unfold ParseMultipartForm ReadForm
  rw [if_neg (by decide)]
  have h := readFormLoop_one_big ⟨"image1", "big.png", bigFile⟩ (10 <<< 20)
    (((10 <<< 20 : Nat) : Int) + (10 <<< 20 : Nat)) (by decide) (by decide) bigFile_length
  have hF : Part.FileName ⟨"image1", "big.png", bigFile⟩ = "big.png" := by decide
  rw [hF] at h
  exact h

theorem bigFile_accepted : accepted (DetectContentType bigFile) :=
  Or.inl ((detect_png_iff bigFile).mpr (List.prefix_append _ _))

theorem mem_slots (s : String) : s ∈ slots ↔ s = "image1" ∨ s = "image2" ∨ s = "image3" := by
  simp [slots]

theorem slot_ne_empty (s : String) (hs : s ∈ slots) : s ≠ "" := by
  rcases (mem_slots s).mp hs with h | h | h <;> subst h <;> decide

theorem slot_path (s : String) (hs : s ∈ slots) :
    Join [uploadPath, s ++ ".png"] = "uploads/" ++ s ++ ".png" := by
  rcases (mem_slots s).mp hs with h | h | h <;> subst h <;> decide

theorem Get_absent (q : List (String × String)) (key : String)
    (h : ∀ v, (key, v) ∉ q) : Get q key = "" := by
  induction q with
  | nil => rfl
  | cons x q ih =>
    obtain ⟨k, v⟩ := x
    simp only [Get]
    split_ifs with hk
    · subst hk
      exact absurd (List.mem_cons_self _ _) (h v)
    · exact ih (fun v1 hv => h v1 (List.mem_cons_of_mem _ hv))

/-! ## Lemmas on `uploadHandler` -/

theorem Read_start (rt : Runtime) (content buffer : Bytes) (d : Bool)
    (hread : rt.readErr = false) (hne : content ≠ []) :
    File.Read rt ⟨content, 0, d⟩ buffer =
      (content.take buffer.length ++ buffer.drop (content.take buffer.length).length,
        (content.take buffer.length).length, none,
        ⟨content, 0 + (content.take buffer.length).length, d⟩) := by
  have hlen : ¬ content.length ≤ 0 := by
    cases content with
    | nil => exact absurd rfl hne
    | cons a l => simp
  simp only [File.Read, hread, hlen, if_false, List.drop_zero, Bool.false_eq_true, and_false]

theorem Read_fresh (rt : Runtime) (content : Bytes) (d : Bool) (hread : rt.readErr = false)
    (hne : content ≠ []) :
    File.Read rt ⟨content, 0, d⟩ (List.replicate 512 0) =
      (sniffBuffer content, (content.take 512).length, none,
        ⟨content, 0 + (content.take 512).length, d⟩) := by
  rw [Read_start rt content _ d hread hne]
  simp only [List.length_replicate, List.drop_replicate, sniffBuffer]

theorem Read_nil (rt : Runtime) (buffer : Bytes) (d : Bool) :
    ∃ b n e f, File.Read rt ⟨[], 0, d⟩ buffer = (b, n, some e, f) := by
  unfold File.Read
  split_ifs with h1 h2
  · exact ⟨_, _, _, _, rfl⟩
  · exact ⟨_, _, _, _, rfl⟩
  · simp at h2

theorem slot_cond (s : String) (hs : s ∈ slots) :
    ¬ (s ≠ "image1" ∧ s ≠ "image2" ∧ s ≠ "image3") := by
  rcases (mem_slots s).mp hs with h | h | h <;> simp [h]

/-- The handler once the slot, file-presence, extension and read gates are
passed: what remains is the sniff gate, the rewind and the write. -/
theorem upload_staged (rt : Runtime) (fs : FS) (r : Request) (form : Form) (s : String)
    (fh : FileHeader)
    (hparse : ParseMultipartForm r (10 <<< 20) = .ok form)
    (hslot : Get r.query "image" = s) (hs : s ∈ slots)
    (hfile : firstFile form.File s = some fh) (hopen : rt.openErr = false)
    (hpng : isPNG rt.orbit fh = true) (hread : rt.readErr = false) (hne : fh.content ≠ []) :
    uploadHandler rt fs r =
      (let mimeType := DetectContentType (sniffBuffer fh.content)
       let out := ["Uploaded File: " ++ fh.Filename ++ "\n", "MIME Type: " ++ mimeType ++ "\n"]
       let path := "uploads/" ++ s ++ ".png"
       if ¬ accepted mimeType then
         ⟨Error (goBytes "Invalid file type. Only PNG and JPEG are allowed.")
           StatusUnsupportedMediaType, fs, out, []⟩
       else if fh.onDisk = true ∧ rt.seekErr = true then
         ⟨Error (goBytes "Unable to seek file") StatusInternalServerError, fs, out, []⟩
       else if rt.createErr then
         ⟨Error (goBytes "Unable to save the file") StatusInternalServerError, fs, out, []⟩
       else match rt.copyErr with
         | some k =>
           ⟨Error (goBytes "Unable to save the file") StatusInternalServerError,
             (fs.write path []).write path (fh.content.take k), out, []⟩
         | none => ⟨Redirect r "/" StatusSeeOther, (fs.write path []).write path fh.content, out, []⟩) := by
  unfold uploadHandler
  simp only [hparse, hslot, if_neg (slot_cond s hs), FormFile, hfile, hopen, hpng,
    Read_fresh rt fh.content fh.onDisk hread hne, slot_path s hs, Bool.false_eq_true, if_false,
    not_true_eq_false, accepted, not_or, ne_eq, and_false]
  split_ifs with h1 h2 h3
  · rfl
  · simp [File.Seek, h2]
  · simp [File.Seek, h2, Create, h3]
  · cases hc : rt.copyErr <;> simp [File.Seek, h2, Create, h3, Copy, hc]

theorem slots_of_cond (s : String) (h : ¬ (s ≠ "image1" ∧ s ≠ "image2" ∧ s ≠ "image3")) :
    s ∈ slots := by
  rw [mem_slots]
  by_cases h1 : s = "image1"
  · exact Or.inl h1
  · by_cases h2 : s = "image2"
    · exact Or.inr (Or.inl h2)
    · by_cases h3 : s = "image3"
      · exact Or.inr (Or.inr h3)
      · exact absurd ⟨h1, h2, h3⟩ h

/-- Every way `uploadHandler` can end: a client error or a failed read, rewind
or create with the filesystem untouched, a failed copy, or the redirect with
the slot file written. -/
theorem upload_inv (rt : Runtime) (fs : FS) (r : Request) (res : Result)
    (h : uploadHandler rt fs r = res) :
    (res.resp.status = 400 ∧ res.fs = fs) ∨ (res.resp.status = 415 ∧ res.fs = fs) ∨
    res.resp.status = 500 ∨
    (res.resp.status = 303 ∧ Get r.query "image" ∈ slots ∧
      ∃ content, res.fs = (fs.write ("uploads/" ++ Get r.query "image" ++ ".png") []).write
          ("uploads/" ++ Get r.query "image" ++ ".png") content) := by
  unfold uploadHandler at h
  dsimp only at h
  repeat' split at h
  all_goals subst h
  all_goals first
    | (left; exact ⟨rfl, rfl⟩)
    | (right; left; exact ⟨rfl, rfl⟩)
    | (right; right; left; rfl)
    | skip
  right; right; right
  have hs := slots_of_cond _ ‹¬ (Get r.query "image" ≠ "image1" ∧ _)›
  have hcreate := ‹Create rt fs _ = Except.ok _›
  have hcopy := ‹Copy rt _ _ _ = (_, none)›
  rw [slot_path _ hs] at hcreate hcopy
  unfold Create at hcreate
  split_ifs at hcreate
  injection hcreate with hcreate
  subst hcreate
  unfold Copy at hcopy
  split at hcopy
  · simp at hcopy
  · simp only [Prod.mk.injEq, and_true] at hcopy
    exact ⟨rfl, hs, _, hcopy.symm⟩

theorem accepted_take (content : Bytes) :
    accepted (DetectContentType (content.take 512)) ↔ accepted (DetectContentType content) := by
  unfold accepted
  rw [detect_png_iff, detect_jpeg_iff, detect_png_iff, detect_jpeg_iff,
    List.prefix_take_iff, List.prefix_take_iff]
  have h1 : pngSig.length ≤ 512 := by decide
  have h2 : jpegSig.length ≤ 512 := by decide
  simp [h1, h2]

theorem content_ne_nil (content : Bytes) (h : accepted (DetectContentType content)) :
    content ≠ [] := by
  intro h0
  subst h0
  exact not_accepted_nil h

/-- The handler when every gate is passed and no system call fails. -/
theorem upload_success (rt : Runtime) (fs : FS) (r : Request) (form : Form)
    (s filename : String) (content : Bytes)
    (hs : s ∈ slots) (hslot : Get r.query "image" = s)
    (hparse : ParseMultipartForm r (10 <<< 20) = .ok form)
    (hup : uploaded r.parts s = some (filename, content))
    (hopen : rt.openErr = false)
    (hext : EqualFold rt.orbit (Ext filename) ".png" = true)
    (hread : rt.readErr = false)
    (hsniff : accepted (DetectContentType content))
    (hseek : rt.seekErr = false) (hcreate : rt.createErr = false) (hcopy : rt.copyErr = none) :
    uploadHandler rt fs r =
      ⟨Redirect r "/" StatusSeeOther,
        (fs.write ("uploads/" ++ s ++ ".png") []).write ("uploads/" ++ s ++ ".png") content,
        ["Uploaded File: " ++ filename ++ "\n",
          "MIME Type: " ++ DetectContentType (sniffBuffer content) ++ "\n"], []⟩ := by
  obtain ⟨fh, hfile, hname, hcontent⟩ :=
    firstFile_of_uploaded r _ form s filename content (slot_ne_empty s hs) hparse hup
  subst hname hcontent
  rw [upload_staged rt fs r form s fh hparse hslot hs hfile hopen hext hread
    (content_ne_nil _ hsniff)]
  have h := (accepted_sniffBuffer fh.content).mpr hsniff
  simp only [h, not_true_eq_false, if_false, hseek, hcreate, hcopy, Bool.false_eq_true,
    and_false]

/-- The handler when every gate up to the sniff gate is passed and the rewind
of the temporary file fails. -/
theorem upload_seek_fails (rt : Runtime) (fs : FS) (r : Request) (form : Form)
    (s : String) (fh : FileHeader)
    (hs : s ∈ slots) (hslot : Get r.query "image" = s)
    (hparse : ParseMultipartForm r (10 <<< 20) = .ok form)
    (hfile : firstFile form.File s = some fh)
    (hopen : rt.openErr = false)
    (hext : isPNG rt.orbit fh = true)
    (hread : rt.readErr = false)
    (hsniff : accepted (DetectContentType fh.content))
    (hdisk : fh.onDisk = true) (hseek : rt.seekErr = true) :
    uploadHandler rt fs r =
      ⟨Error (goBytes "Unable to seek file") StatusInternalServerError, fs,
        ["Uploaded File: " ++ fh.Filename ++ "\n",
          "MIME Type: " ++ DetectContentType (sniffBuffer fh.content) ++ "\n"], []⟩ := by
  rw [upload_staged rt fs r form s fh hparse hslot hs hfile hopen hext hread
    (content_ne_nil _ hsniff)]
  have h := (accepted_sniffBuffer fh.content).mpr hsniff
  simp only [h, not_true_eq_false, if_false, hseek, hdisk, and_self, if_true]

theorem write_same (fs : FS) (p : String) (b : Bytes) : (fs.write p b) p = some b := by
  simp [FS.write]

theorem write_other (fs : FS) (p q : String) (b : Bytes) (h : q ≠ p) : (fs.write p b) q = fs q := by
  simp [FS.write, h]

theorem Ext_png (stem : String) : Ext (stem ++ ".png") = ".png" := by
  simp [Ext, String.data_append, extLoop]

/-! ## Lemmas on the extension test -/

theorem char_of_toNat (c : Char) (n : Nat) (h : c.toNat = n) : c = Char.ofNat n := by
  rw [← h, Char.ofNat_toNat]

/-- What `foldRune` accepts against an ASCII rune other than `K`, `k`, `S`,
`s`: the rune itself or its other letter case. -/
theorem foldRune_ascii (orbit : Char → Char → Bool) (c t : Char) (ht : t.toNat < 128)
    (hk : t ≠ 'K' ∧ t ≠ 'k' ∧ t ≠ 'S' ∧ t ≠ 's') (h : foldRune orbit c t = true) :
    c = t ∨ (65 ≤ c.toNat ∧ c.toNat ≤ 90 ∧ t.toNat = c.toNat + 32) ∨
      (65 ≤ t.toNat ∧ t.toNat ≤ 90 ∧ c.toNat = t.toNat + 32) := by
  unfold foldRune at h
  by_cases he : t = c
  · exact Or.inl he.symm
  · rw [if_neg he] at h
    have hA : 'A'.toNat = 65 := rfl
    have hZ : 'Z'.toNat = 90 := rfl
    have ha : 'a'.toNat = 97 := rfl
    by_cases hlt : t.toNat < c.toNat
    · simp only [hlt, if_true] at h
      by_cases hc : c.toNat < 128
      · simp only [hc, if_true, decide_eq_true_eq, hA, hZ, ha] at h
        right; right
        omega
      · simp only [hc, if_false, ht, if_true, decide_eq_true_eq] at h
        rcases h with ⟨h1 | h1, _⟩ | ⟨h1 | h1, _⟩
        · exact absurd h1 hk.1
        · exact absurd h1 hk.2.1
        · exact absurd h1 hk.2.2.1
        · exact absurd h1 hk.2.2.2
    · simp only [hlt, if_false, ht, if_true, decide_eq_true_eq, hA, hZ, ha] at h
      right; left
      omega

theorem foldRune_dot (orbit : Char → Char → Bool) (c : Char)
    (h : foldRune orbit c '.' = true) : c = '.' := by
  have h46 : '.'.toNat = 46 := rfl
  rcases foldRune_ascii orbit c '.' (by decide) (by decide) h with h1 | h1 | h1
  · exact h1
  · omega
  · omega

theorem foldRune_letter (orbit : Char → Char → Bool) (c lo up : Char)
    (hlo : 97 ≤ lo.toNat ∧ lo.toNat ≤ 122) (hup : up = Char.ofNat (lo.toNat - 32))
    (hk : lo ≠ 'K' ∧ lo ≠ 'k' ∧ lo ≠ 'S' ∧ lo ≠ 's')
    (h : foldRune orbit c lo = true) : c = lo ∨ c = up := by
  rcases foldRune_ascii orbit c lo (by omega) hk h with h1 | h1 | h1
  · exact Or.inl h1
  · right
    rw [hup]
    exact char_of_toNat c _ (by omega)
  · omega

/-- `isPNG` holds exactly for the file names whose extension is `.png` in some
letter case, whatever the Unicode tables are. -/
theorem isPNG_iff (orbit : Char → Char → Bool) (fh : FileHeader) :
    isPNG orbit fh = true ↔ Ext fh.Filename ∈ pngExts := by
  constructor
  · intro h
    unfold isPNG EqualFold at h
    have hd : (".png" : String).data = ['.', 'p', 'n', 'g'] := rfl
    rw [hd] at h
    have hE : Ext fh.Filename = String.mk (Ext fh.Filename).data := rfl
    rw [hE]
    generalize (Ext fh.Filename).data = e at h
    match e, h with
    | [], h => simp [equalFoldLoop] at h
    | [_], h => simp [equalFoldLoop] at h
    | [_, _], h => simp [equalFoldLoop] at h
    | [_, _, _], h => simp [equalFoldLoop] at h
    | _ :: _ :: _ :: _ :: _ :: _, h => simp [equalFoldLoop] at h
    | [a, b, c, d], h =>
      simp only [equalFoldLoop, List.isEmpty_nil, Bool.and_true, Bool.and_eq_true] at h
      obtain ⟨h0, h1, h2, h3⟩ := h
      have e0 := foldRune_dot orbit a h0
      have e1 := foldRune_letter orbit b 'p' 'P' (by decide) (by decide) (by decide) h1
      have e2 := foldRune_letter orbit c 'n' 'N' (by decide) (by decide) (by decide) h2
      have e3 := foldRune_letter orbit d 'g' 'G' (by decide) (by decide) (by decide) h3
      subst e0
      rcases e1 with e1 | e1 <;> rcases e2 with e2 | e2 <;> rcases e3 with e3 | e3 <;>
        subst e1 e2 e3 <;> decide
  · intro h
    unfold isPNG
    simp only [pngExts, List.mem_cons, List.mem_singleton, List.not_mem_nil, or_false] at h
    rcases h with h | h | h | h | h | h | h | h <;> rw [h] <;> rfl

/-! ## The claims -/

/-- Claim C1: for every slot and every upload that passes all gates of
`uploadHandler` (the body parses, the slot has a file part, the file name has
the extension `.png`, the content is readable and sniffs as PNG or JPEG, and
seek, create and copy succeed), afterwards the file `uploads/<slot>.png` holds
exactly the uploaded bytes, whatever the path held before, no other path has
changed, and the response is a 303 redirect to `/`. -/
theorem upload_persists_file (rt : Runtime) (fs : FS) (r : Request) (form : Form)
    (s filename : String) (content : Bytes)
    (hs : s ∈ slots) (hslot : Get r.query "image" = s)
    (hparse : ParseMultipartForm r (10 <<< 20) = .ok form)
    (hup : uploaded r.parts s = some (filename, content))
    (hopen : rt.openErr = false)
    (hext : isPNG rt.orbit ⟨filename, content.length, content, false⟩ = true)
    (hread : rt.readErr = false)
    (hsniff : accepted (DetectContentType content))
    (hseek : rt.seekErr = false) (hcreate : rt.createErr = false) (hcopy : rt.copyErr = none) :
    (uploadHandler rt fs r).fs ("uploads/" ++ s ++ ".png") = some content ∧
    (∀ q, q ≠ "uploads/" ++ s ++ ".png" → (uploadHandler rt fs r).fs q = fs q) ∧
    (uploadHandler rt fs r).resp.status = 303 ∧
    ("Location", "/") ∈ (uploadHandler rt fs r).resp.header := by
  rw [upload_success rt fs r form s filename content hs hslot hparse hup hopen hext hread hsniff
    hseek hcreate hcopy]
  refine ⟨write_same _ _ _, ?_, rfl, ?_⟩
  · intro q hq
    show ((fs.write _ []).write _ content) q = fs q
    rw [write_other _ _ _ _ hq, write_other _ _ _ _ hq]
  · simp [Redirect]

/-- Witness for C1: a PNG uploaded to slot 2 replaces the file the slot had. -/
theorem upload_persists_file_witness :
    (uploadHandler rtOk fsOld reqPng).fs ("uploads/" ++ "image2" ++ ".png") = some pngFile ∧
    (∀ q, q ≠ "uploads/" ++ "image2" ++ ".png" → (uploadHandler rtOk fsOld reqPng).fs q = fsOld q) ∧
    (uploadHandler rtOk fsOld reqPng).resp.status = 303 ∧
    ("Location", "/") ∈ (uploadHandler rtOk fsOld reqPng).resp.header :=
  upload_persists_file rtOk fsOld reqPng
    ⟨[], [("image2", ⟨"logo.PNG", 16, pngFile, false⟩)]⟩ "image2" "logo.PNG" pngFile
    (by decide) (by decide) (by rfl) (by decide) (by rfl) (by decide) (by rfl) (by decide)
    (by rfl) (by rfl) (by rfl)

theorem reqPng_status : (uploadHandler rtOk fsEmpty reqPng).resp.status = 303 := by
  rw [upload_success rtOk fsEmpty reqPng ⟨[], [("image2", ⟨"logo.PNG", 16, pngFile, false⟩)]⟩
    "image2" "logo.PNG" pngFile (by decide) (by decide) (by rfl) (by decide) (by rfl) (by decide)
    (by rfl) (by decide) (by rfl) (by rfl) (by rfl)]
  rfl

/-- Claim C2: after a successful upload (the handler answered 303) the view
model built by `formHandler` on the resulting filesystem has
`/uploads/<slot>.png` in the field of the uploaded slot; and for every slot
`getImagePath` is `/uploads/<slot>.png` exactly when the file
`uploads/<slot>.png` exists and the empty string otherwise, so that the field
of a slot without a file is empty. -/
theorem view_model_refs (tmpl : ImageData → Bytes) (rt rt2 : Runtime) (fs : FS) (r : Request) :
    ((uploadHandler rt fs r).resp.status = 303 →
      Get r.query "image" ∈ slots ∧
      (formHandler tmpl rt2 (uploadHandler rt fs r).fs).1.slot (Get r.query "image") =
        "/uploads/" ++ Get r.query "image" ++ ".png") ∧
    (∀ s ∈ slots, getImagePath fs s =
      if (fs ("uploads/" ++ s ++ ".png")).isSome then "/uploads/" ++ s ++ ".png" else "") ∧
    (∀ s ∈ slots, fs ("uploads/" ++ s ++ ".png") = none →
      getImagePath fs s = "" ∧ (formHandler tmpl rt2 fs).1.slot s = "") := by
  have hpath : ∀ (fs : FS), ∀ s ∈ slots, getImagePath fs s =
      if (fs ("uploads/" ++ s ++ ".png")).isSome then "/uploads/" ++ s ++ ".png" else "" := by
    intro fs s hs
    unfold getImagePath
    simp only [slot_path s hs]
    rcases (mem_slots s).mp hs with h | h | h <;> subst h <;> split_ifs <;> rfl
  have hslot : ∀ (fs : FS), ∀ s ∈ slots, (formHandler tmpl rt2 fs).1.slot s = getImagePath fs s := by
    intro fs s hs
    rcases (mem_slots s).mp hs with h | h | h <;> subst h <;> rfl
  refine ⟨?_, hpath fs, ?_⟩
  · intro h303
    rcases upload_inv rt fs r _ rfl with h | h | h | ⟨_, hs, content, hfs⟩
    · rw [h.1] at h303; exact absurd h303 (by decide)
    · rw [h.1] at h303; exact absurd h303 (by decide)
    · rw [h] at h303; exact absurd h303 (by decide)
    · refine ⟨hs, ?_⟩
      rw [hslot _ _ hs, hpath _ _ hs, hfs, write_same]
      rfl
  · intro s hs hnone
    have h1 : getImagePath fs s = "" := by rw [hpath fs s hs, hnone]; rfl
    exact ⟨h1, by rw [hslot fs s hs, h1]⟩

/-- Witness for C2: after the PNG upload to slot 2 the page refers to
`/uploads/image2.png`, and slot 1, which has no file, has an empty reference. -/
theorem view_model_refs_witness :
    (formHandler (fun _ => []) rtOk (uploadHandler rtOk fsEmpty reqPng).fs).1.slot
        (Get reqPng.query "image") = "/uploads/" ++ Get reqPng.query "image" ++ ".png" ∧
    (formHandler (fun _ => []) rtOk fsOld).1.slot "image1" = "" :=
  ⟨((view_model_refs (fun _ => []) rtOk rtOk fsEmpty reqPng).1 reqPng_status).2,
    ((view_model_refs (fun _ => []) rtOk rtOk fsOld reqPng).2.2 "image1" (by decide)
      (by decide)).2⟩

/-- Claim C3: for every upload that parses, names a valid slot and carries the
file part, if the extension of the file name is not `.png` in some letter case
(as for `photo.jpg`) the handler answers 415 and leaves the filesystem alone,
whatever the content is, PNG bytes included; and `isPNG` accepts exactly the
file names whose extension is `.png` in any letter case. -/
theorem extension_gate (rt : Runtime) (fs : FS) (r : Request) (form : Form)
    (s filename : String) (content : Bytes)
    (hs : s ∈ slots) (hslot : Get r.query "image" = s)
    (hparse : ParseMultipartForm r (10 <<< 20) = .ok form)
    (hup : uploaded r.parts s = some (filename, content))
    (hopen : rt.openErr = false)
    (hext : Ext filename ∉ pngExts) :
    ((uploadHandler rt fs r).resp.status = 415 ∧ (uploadHandler rt fs r).fs = fs) ∧
    (∀ (orbit : Char → Char → Bool) (fh : FileHeader),
      isPNG orbit fh = true ↔ Ext fh.Filename ∈ pngExts) := by
  refine ⟨?_, isPNG_iff⟩
  obtain ⟨fh, hfile, hname, hcontent⟩ :=
    firstFile_of_uploaded r _ form s filename content (slot_ne_empty s hs) hparse hup
  subst hname hcontent
  have hpng : isPNG rt.orbit fh = false := by
    cases hp : isPNG rt.orbit fh with
    | false => rfl
    | true => exact absurd ((isPNG_iff rt.orbit fh).mp hp) hext
  have h : uploadHandler rt fs r =
      ⟨Error (goBytes "Only PNG files are allowed") StatusUnsupportedMediaType, fs, [], []⟩ := by
    unfold uploadHandler
    simp only [hparse, hslot, if_neg (slot_cond s hs), FormFile, hfile, hopen, hpng,
      Bool.false_eq_true, if_false, not_false_eq_true, if_true, and_false]
  rw [h]
  exact ⟨rfl, rfl⟩

/-- Witness for C3: PNG bytes uploaded under the name `photo.jpg` are
answered with 415, and `LOGO.PnG` is accepted by `isPNG`. -/
theorem extension_gate_witness :
    ((uploadHandler rtOk fsEmpty reqPhotoJpg).resp.status = 415 ∧
      (uploadHandler rtOk fsEmpty reqPhotoJpg).fs = fsEmpty) ∧
    DetectContentType pngFile = "image/png" ∧
    isPNG rtOk.orbit ⟨"LOGO.PnG", 0, [], false⟩ = true :=
  have h := extension_gate rtOk fsEmpty reqPhotoJpg
    ⟨[], [("image3", ⟨"photo.jpg", 16, pngFile, false⟩)]⟩ "image3" "photo.jpg" pngFile
    (by decide) (by decide) (by rfl) (by decide) (by rfl) (by decide)
  ⟨h.1, by decide, (h.2 rtOk.orbit ⟨"LOGO.PnG", 0, [], false⟩).mpr (by decide)⟩

/-- Claim C4: for every upload that has passed the slot, file-presence and
extension gates and whose content is readable, the handler answers 415 exactly
when the type sniffed from the leading (at most 512) bytes is neither
`image/png` nor `image/jpeg`; in particular a file with a `.png` name whose
content is a JPEG byte stream is not rejected by the sniff gate and, when the
rewind and the write succeed, is stored under `uploads/<slot>.png`. -/
theorem sniff_gate (rt : Runtime) (fs : FS) (r : Request) (form : Form)
    (s filename : String) (content : Bytes)
    (hs : s ∈ slots) (hslot : Get r.query "image" = s)
    (hparse : ParseMultipartForm r (10 <<< 20) = .ok form)
    (hup : uploaded r.parts s = some (filename, content))
    (hopen : rt.openErr = false)
    (hext : isPNG rt.orbit ⟨filename, content.length, content, false⟩ = true)
    (hread : rt.readErr = false) (hne : content ≠ []) :
    ((uploadHandler rt fs r).resp.status = 415 ↔
      ¬ accepted (DetectContentType (content.take 512))) ∧
    (jpegSig <+: content →
      (uploadHandler rt fs r).resp.status ≠ 415 ∧
      (rt.seekErr = false → rt.createErr = false → rt.copyErr = none →
        (uploadHandler rt fs r).resp.status = 303 ∧
        (uploadHandler rt fs r).fs ("uploads/" ++ s ++ ".png") = some content)) := by
  have hiff : accepted (DetectContentType (sniffBuffer content)) ↔
      accepted (DetectContentType (content.take 512)) :=
    (accepted_sniffBuffer content).trans (accepted_take content).symm
  have h415 : (uploadHandler rt fs r).resp.status = 415 ↔
      ¬ accepted (DetectContentType (content.take 512)) := by
    obtain ⟨fh, hfile, hname, hcontent⟩ :=
      firstFile_of_uploaded r _ form s filename content (slot_ne_empty s hs) hparse hup
    subst hname hcontent
    rw [upload_staged rt fs r form s fh hparse hslot hs hfile hopen hext hread hne, ← hiff]
    dsimp only
    by_cases ha : accepted (DetectContentType (sniffBuffer fh.content))
    · simp only [ha, not_true_eq_false, if_false, iff_false]
      split_ifs
      · simp [Error, StatusInternalServerError]
      · simp [Error, StatusInternalServerError]
      · cases rt.copyErr <;> simp [Error, Redirect, StatusInternalServerError, StatusSeeOther]
    · simp only [ha, not_false_eq_true, if_true, iff_true]
      rfl
  refine ⟨h415, ?_⟩
  intro hj
  have hacc : accepted (DetectContentType content) := Or.inr ((detect_jpeg_iff content).mpr hj)
  refine ⟨fun h => (h415.mp h) ((accepted_take content).mpr hacc), ?_⟩
  intro hseek hcreate hcopy
  rw [upload_success rt fs r form s filename content hs hslot hparse hup hopen hext hread hacc
    hseek hcreate hcopy]
  exact ⟨rfl, write_same _ _ _⟩

/-- Witness for C4: `photo.png` holding a JPEG byte stream is stored as
`uploads/image1.png`. -/
theorem sniff_gate_witness :
    DetectContentType jpegFile = "image/jpeg" ∧
    (uploadHandler rtOk fsEmpty reqJpegAsPng).resp.status = 303 ∧
    (uploadHandler rtOk fsEmpty reqJpegAsPng).fs ("uploads/" ++ "image1" ++ ".png") =
      some jpegFile :=
  ⟨by decide,
    ((sniff_gate rtOk fsEmpty reqJpegAsPng
      ⟨[], [("image1", ⟨"photo.png", 11, jpegFile, false⟩)]⟩ "image1" "photo.png" jpegFile
      (by decide) (by decide) (by rfl) (by decide) (by rfl) (by decide) (by rfl)
      (by decide)).2 (by decide)).2 (by rfl) (by rfl) (by rfl)⟩

/-- Claim C5: every request to `uploadHandler` whose `image` query parameter
is absent, or is anything but `image1`, `image2` or `image3`, is answered with
status 400. -/
theorem invalid_slot_rejected (rt : Runtime) (fs : FS) (r : Request)
    (h : (∀ v, ("image", v) ∉ r.query) ∨ Get r.query "image" ∉ slots) :
    (uploadHandler rt fs r).resp.status = 400 := by
  have h1 : Get r.query "image" ∉ slots := by
    rcases h with h | h
    · rw [Get_absent _ _ h]; decide
    · exact h
  have hcond : Get r.query "image" ≠ "image1" ∧ Get r.query "image" ≠ "image2" ∧
      Get r.query "image" ≠ "image3" := by
    rw [mem_slots] at h1
    push_neg at h1
    exact h1
  unfold uploadHandler
  split
  · rfl
  · simp only [if_pos hcond]
    rfl

/-- Witness for C5: no `image` parameter, and `image=image4`. -/
theorem invalid_slot_rejected_witness :
    (uploadHandler rtOk fsEmpty reqNoSlot).resp.status = 400 ∧
    (uploadHandler rtOk fsEmpty reqImage4).resp.status = 400 :=
  ⟨invalid_slot_rejected rtOk fsEmpty reqNoSlot (Or.inl (fun _ => List.not_mem_nil _)),
    invalid_slot_rejected rtOk fsEmpty reqImage4 (Or.inr (by decide))⟩

/-- Claim C6, evaluated on the code: a request whose body exceeds 10 MiB, made
of one file part for slot 1 that starts with the PNG signature, is not
rejected: `ParseMultipartForm(10 << 20)` only bounds what is kept in memory,
the file is spooled to disk, the handler answers 303 and writes the whole file
to `uploads/image1.png`. -/
theorem large_body_accepted :
    10 * 2 ^ 20 < reqBig.bodySize ∧
    (uploadHandler rtOk fsEmpty reqBig).resp.status = 303 ∧
    (uploadHandler rtOk fsEmpty reqBig).fs "uploads/image1.png" = some bigFile := by
  have hsize : 10 * 2 ^ 20 < reqBig.bodySize := by
    simp only [Request.bodySize, reqBig, List.map_cons, List.map_nil, List.sum_cons,
      List.sum_nil, Part.size, bigFile, List.length_append, List.length_replicate]
    decide
  have hF : Part.FileName ⟨"image1", "big.png", bigFile⟩ = "big.png" := by decide
  have hup : uploaded reqBig.parts "image1" = some ("big.png", bigFile) := by
    simp [reqBig, uploaded, hF]
  have h := upload_success rtOk fsEmpty reqBig formBig "image1" "big.png" bigFile (by decide)
    (by decide) reqBig_parse hup (by rfl) (by decide) (by rfl) bigFile_accepted (by rfl)
    (by rfl) (by rfl)
  rw [h]
  have hp : "uploads/image1.png" = "uploads/" ++ "image1" ++ ".png" := by decide
  rw [hp]
  refine ⟨hsize, ?_, ?_⟩
  · rfl
  · dsimp only
    exact write_same _ _ _

/-- The answers of `runScriptHandler` once the working directory is known: a
method other than POST is answered with 405 and nothing is executed; a POST
for which the script exits with status 0 is answered with 200,
`Content-Type: text/plain` and the captured output as the body; a POST for
which the script cannot be started, exits with a non-zero status or fails
otherwise is answered with 500 and a body that contains both the error
description and the captured output. -/
theorem run_script_responses (rt : Runtime) (fs : FS) (r : Request) :
    (r.Method ≠ "POST" →
      (runScriptHandler rt fs r).resp.status = 405 ∧ (runScriptHandler rt fs r).executed = []) ∧
    (∀ dir output, r.Method = "POST" → rt.getwd = .ok dir →
      rt.run (Join [dir, "scripts", "script.sh"]) = .exited 0 output →
      (runScriptHandler rt fs r).resp.status = 200 ∧
      (runScriptHandler rt fs r).resp.header = [("Content-Type", "text/plain")] ∧
      (runScriptHandler rt fs r).resp.body = output ∧
      (runScriptHandler rt fs r).executed = [Join [dir, "scripts", "script.sh"]]) ∧
    (∀ dir err, r.Method = "POST" → rt.getwd = .ok dir →
      rt.run (Join [dir, "scripts", "script.sh"]) = .startFailed err →
      (runScriptHandler rt fs r).resp.status = 500 ∧
      goBytes err <:+: (runScriptHandler rt fs r).resp.body) ∧
    (∀ dir n output, r.Method = "POST" → rt.getwd = .ok dir →
      rt.run (Join [dir, "scripts", "script.sh"]) = .exited (n + 1) output →
      (runScriptHandler rt fs r).resp.status = 500 ∧
      goBytes ("exit status " ++ toString (n + 1)) <:+: (runScriptHandler rt fs r).resp.body ∧
      output <:+: (runScriptHandler rt fs r).resp.body) ∧
    (∀ dir err output, r.Method = "POST" → rt.getwd = .ok dir →
      rt.run (Join [dir, "scripts", "script.sh"]) = .failed err output →
      (runScriptHandler rt fs r).resp.status = 500 ∧
      goBytes err <:+: (runScriptHandler rt fs r).resp.body ∧
      output <:+: (runScriptHandler rt fs r).resp.body) := by
  refine ⟨?_, ?_, ?_, ?_, ?_⟩
  · intro hm
    have h : r.Method ≠ MethodPost := hm
    unfold runScriptHandler
    rw [if_pos h]
    exact ⟨rfl, rfl⟩
  · intro dir output hm hwd hrun
    have h : ¬ r.Method ≠ MethodPost := fun h => h hm
    unfold runScriptHandler
    simp only [if_neg h, hwd, hrun, CombinedOutput]
    refine ⟨?_, ?_, ?_, ?_⟩ <;> first | rfl | trivial
  · intro dir err hm hwd hrun
    have h : ¬ r.Method ≠ MethodPost := fun h => h hm
    unfold runScriptHandler
    simp only [if_neg h, hwd, hrun, CombinedOutput]
    refine ⟨rfl, goBytes "Script failed: ", goBytes "\nOutput: " ++ [] ++ goBytes "\n", ?_⟩
    simp [Error, List.append_assoc]
  · intro dir n output hm hwd hrun
    have h : ¬ r.Method ≠ MethodPost := fun h => h hm
    unfold runScriptHandler
    simp only [if_neg h, hwd, hrun, CombinedOutput]
    refine ⟨rfl, ⟨goBytes "Script failed: ", goBytes "\nOutput: " ++ output ++ goBytes "\n", ?_⟩,
      ⟨goBytes "Script failed: " ++ goBytes ("exit status " ++ toString (n + 1)) ++
        goBytes "\nOutput: ", goBytes "\n", ?_⟩⟩
    · simp [Error, List.append_assoc]
    · simp [Error, List.append_assoc]
  · intro dir err output hm hwd hrun
    have h : ¬ r.Method ≠ MethodPost := fun h => h hm
    unfold runScriptHandler
    simp only [if_neg h, hwd, hrun, CombinedOutput]
    refine ⟨rfl, ⟨goBytes "Script failed: ", goBytes "\nOutput: " ++ output ++ goBytes "\n", ?_⟩,
      ⟨goBytes "Script failed: " ++ goBytes err ++ goBytes "\nOutput: ", goBytes "\n", ?_⟩⟩
    · simp [Error, List.append_assoc]
    · simp [Error, List.append_assoc]

/-- The cases of `run_script_responses` on concrete runs: a GET, a POST with
the script exiting 0, one with the script exiting 3, one whose script cannot
be started and one whose script is killed. -/
theorem run_script_examples :
    ((runScriptHandler rtOk fsEmpty reqGet).resp.status = 405 ∧
      (runScriptHandler rtOk fsEmpty reqGet).executed = []) ∧
    ((runScriptHandler rtOk fsEmpty reqPost).resp.status = 200 ∧
      (runScriptHandler rtOk fsEmpty reqPost).resp.header = [("Content-Type", "text/plain")] ∧
      (runScriptHandler rtOk fsEmpty reqPost).resp.body = goBytes "done\n" ∧
      (runScriptHandler rtOk fsEmpty reqPost).executed =
        [Join ["/srv/kiosk", "scripts", "script.sh"]]) ∧
    ((runScriptHandler rtNoScript fsEmpty reqPost).resp.status = 500 ∧
      goBytes "permission denied" <:+: (runScriptHandler rtNoScript fsEmpty reqPost).resp.body) ∧
    ((runScriptHandler rtScriptFails fsEmpty reqPost).resp.status = 500 ∧
      goBytes ("exit status " ++ toString (2 + 1)) <:+:
        (runScriptHandler rtScriptFails fsEmpty reqPost).resp.body ∧
      goBytes "oops\n" <:+: (runScriptHandler rtScriptFails fsEmpty reqPost).resp.body) ∧
    ((runScriptHandler rtScriptKilled fsEmpty reqPost).resp.status = 500 ∧
      goBytes "signal: killed" <:+: (runScriptHandler rtScriptKilled fsEmpty reqPost).resp.body ∧
      goBytes "half" <:+: (runScriptHandler rtScriptKilled fsEmpty reqPost).resp.body) :=
  ⟨(run_script_responses rtOk fsEmpty reqGet).1 (by decide),
    (run_script_responses rtOk fsEmpty reqPost).2.1 "/srv/kiosk" (goBytes "done\n") rfl rfl rfl,
    (run_script_responses rtNoScript fsEmpty reqPost).2.2.1 "/srv/kiosk" "permission denied"
      rfl rfl rfl,
    (run_script_responses rtScriptFails fsEmpty reqPost).2.2.2.1 "/srv/kiosk" 2 (goBytes "oops\n")
      rfl rfl rfl,
    (run_script_responses rtScriptKilled fsEmpty reqPost).2.2.2.2 "/srv/kiosk" "signal: killed"
      (goBytes "half") rfl rfl rfl⟩

/-- Claim C7, evaluated on the code: on a POST for which `os.Getwd` fails the
script cannot be started, yet the handler only prints the error and returns
without writing a response, so that the client receives status 200 with no
headers set and an empty body instead of the 500 that the other failure path
of the handler sends; nothing is executed. -/
theorem getwd_failure_answers_200 :
    reqPost.Method = "POST" ∧
    rtNoWd.getwd = .error "getwd: no such file or directory" ∧
    (runScriptHandler rtNoWd fsEmpty reqPost).resp.status = 200 ∧
    (runScriptHandler rtNoWd fsEmpty reqPost).resp.header = [] ∧
    (runScriptHandler rtNoWd fsEmpty reqPost).resp.body = [] ∧
    (runScriptHandler rtNoWd fsEmpty reqPost).executed = [] ∧
    (runScriptHandler rtNoWd fsEmpty reqPost).stdout =
      ["Error: getwd: no such file or directory\n"] ∧
    (runScriptHandler rtNoWd fsEmpty reqPost).resp.status ≠ 500 :=
  ⟨rfl, rfl, rfl, rfl, rfl, rfl, by decide, by decide⟩

/-- Claim C8: whenever `uploadHandler` answers with a 4xx status the
filesystem, and with it the upload directory, is exactly as before: no slot
file is created, truncated or modified. -/
theorem client_error_keeps_files (rt : Runtime) (fs : FS) (r : Request)
    (h : 400 ≤ (uploadHandler rt fs r).resp.status ∧ (uploadHandler rt fs r).resp.status < 500) :
    (uploadHandler rt fs r).fs = fs := by
  rcases upload_inv rt fs r _ rfl with h1 | h1 | h1 | h1
  · exact h1.2
  · exact h1.2
  · rw [h1] at h; exact absurd h.2 (by decide)
  · rw [h1.1] at h; exact absurd h.1 (by decide)

/-- Witness for C8: PNG bytes named `photo.jpg` sent to slot 3 are answered
with 415 and the existing file of slot 2 stays. -/
theorem client_error_keeps_files_witness :
    (400 ≤ (uploadHandler rtOk fsOld reqPhotoJpg).resp.status ∧
      (uploadHandler rtOk fsOld reqPhotoJpg).resp.status < 500) ∧
    (uploadHandler rtOk fsOld reqPhotoJpg).fs = fsOld :=
  ⟨by decide, client_error_keeps_files rtOk fsOld reqPhotoJpg (by decide)⟩

/-- Claim C9, as the code has it: for every upload that passes the slot,
file-presence, extension and sniff gates but whose rewind to offset 0 fails
(the upload was spooled to a temporary file and seeking it fails),
`uploadHandler` answers with status 500 (`Unable to seek file`) and leaves the
filesystem as it was. -/
theorem rewind_failure_is_500 (rt : Runtime) (fs : FS) (r : Request) (form : Form)
    (s : String) (fh : FileHeader)
    (hs : s ∈ slots) (hslot : Get r.query "image" = s)
    (hparse : ParseMultipartForm r (10 <<< 20) = .ok form)
    (hfile : firstFile form.File s = some fh)
    (hopen : rt.openErr = false)
    (hext : isPNG rt.orbit fh = true)
    (hread : rt.readErr = false)
    (hsniff : accepted (DetectContentType fh.content))
    (hdisk : fh.onDisk = true) (hseek : rt.seekErr = true) :
    (uploadHandler rt fs r).resp.status = 500 ∧
    (uploadHandler rt fs r).resp.body = goBytes "Unable to seek file" ++ goBytes "\n" ∧
    (uploadHandler rt fs r).fs = fs := by
  rw [upload_seek_fails rt fs r form s fh hs hslot hparse hfile hopen hext hread hsniff hdisk
    hseek]
  exact ⟨rfl, rfl, rfl⟩

/-- Witness for C9 as amended: the upload of more than 10 MiB to slot 1, which
is spooled to disk, with a failing rewind. -/
theorem rewind_failure_is_500_witness :
    (uploadHandler rtSeekFails fsOld reqBig).resp.status = 500 ∧
    (uploadHandler rtSeekFails fsOld reqBig).resp.body =
      goBytes "Unable to seek file" ++ goBytes "\n" ∧
    (uploadHandler rtSeekFails fsOld reqBig).fs = fsOld :=
  rewind_failure_is_500 rtSeekFails fsOld reqBig formBig "image1" fhBig
    (by decide) (by decide) reqBig_parse (by rfl) (by rfl) (by decide) (by rfl)
    bigFile_accepted (by rfl) (by rfl)

/-- Counterexample to C9 as stated: the upload `big.png` of more than 10 MiB
to slot 1 passes the slot, file-presence, extension and sniff gates, it is
spooled to disk, the rewind of the temporary file fails, and the status is
500, not 400. -/
theorem rewind_failure_not_400 :
    Get reqBig.query "image" ∈ slots ∧
    ParseMultipartForm reqBig (10 <<< 20) = .ok formBig ∧
    firstFile formBig.File "image1" = some fhBig ∧
    isPNG rtSeekFails.orbit fhBig = true ∧
    accepted (DetectContentType fhBig.content) ∧
    fhBig.onDisk = true ∧
    rtSeekFails.seekErr = true ∧
    (uploadHandler rtSeekFails fsEmpty reqBig).resp.status = 500 ∧
    (uploadHandler rtSeekFails fsEmpty reqBig).resp.status ≠ 400 := by
  have h := upload_seek_fails rtSeekFails fsEmpty reqBig formBig "image1" fhBig
    (by decide) (by decide) reqBig_parse (by rfl) (by rfl) (by decide) (by rfl)
    bigFile_accepted (by rfl) (by rfl)
  rw [h]
  exact ⟨by decide, reqBig_parse, by rfl, by decide, bigFile_accepted, rfl, rfl, rfl, by decide⟩

/-- Claim C10: for every upload with a valid slot and a file part whose name
ends in `.png` but whose content has zero bytes, `uploadHandler` answers 500
with `Unable to read file`, not a 4xx status, and the filesystem is unchanged:
the first read reports end-of-file as an error before anything is sniffed or
logged. -/
theorem empty_file_is_500 (rt : Runtime) (fs : FS) (r : Request) (form : Form)
    (s stem : String)
    (hs : s ∈ slots) (hslot : Get r.query "image" = s)
    (hparse : ParseMultipartForm r (10 <<< 20) = .ok form)
    (hup : uploaded r.parts s = some (stem ++ ".png", []))
    (hopen : rt.openErr = false) :
    (uploadHandler rt fs r).resp.status = 500 ∧
    (uploadHandler rt fs r).resp.body = goBytes "Unable to read file" ++ goBytes "\n" ∧
    (uploadHandler rt fs r).fs = fs ∧
    (uploadHandler rt fs r).stdout = [] := by
  obtain ⟨fh, hfile, hname, hcontent⟩ :=
    firstFile_of_uploaded r _ form s (stem ++ ".png") [] (slot_ne_empty s hs) hparse hup
  have hpng : isPNG rt.orbit fh = true := by
    unfold isPNG
    rw [hname, Ext_png]
    rfl
  obtain ⟨b, n, e, f, hr⟩ := Read_nil rt (List.replicate 512 0) fh.onDisk
  have h : uploadHandler rt fs r =
      ⟨Error (goBytes "Unable to read file") StatusInternalServerError, fs, [], []⟩ := by
    unfold uploadHandler
    simp only [hparse, hslot, if_neg (slot_cond s hs), FormFile, hfile, hopen, hpng, hcontent, hr,
      Bool.false_eq_true, if_false, not_true_eq_false, and_false]
  rw [h]
  exact ⟨rfl, rfl, rfl, rfl⟩

/-- Witness for C10: the empty file `empty.png` sent to slot 1. -/
theorem empty_file_is_500_witness :
    (uploadHandler rtOk fsOld reqEmpty).resp.status = 500 ∧
    (uploadHandler rtOk fsOld reqEmpty).resp.body =
      goBytes "Unable to read file" ++ goBytes "\n" ∧
    (uploadHandler rtOk fsOld reqEmpty).fs = fsOld ∧
    (uploadHandler rtOk fsOld reqEmpty).stdout = [] :=
  empty_file_is_500 rtOk fsOld reqEmpty ⟨[], [("image1", ⟨"empty.png", 0, [], false⟩)]⟩
    "image1" "empty" (by decide) (by decide) (by rfl) (by decide) (by rfl)

end KioskUpdater
